import Mathlib

/-!
Verification of the gettext PO/MO conversion and merge engine.

Shallow embedding of the converters found in the repository:
  * `src/converters/po_merger.rs`    (namespace `PoMerger`)
  * `src/converters/po_converter.rs` (namespace `PoConverter`)
  * `src/converters/mo_converter.rs` (namespace `MoConverter`)
  * `src/converters/csv_converter.rs` (namespace `CsvConverter`)

Rust `String`/`&str` values are modelled as `List Char` (Rust iterates
`chars()` in all the string routines embedded here); MO binary buffers are
modelled as `List Nat` with every element a byte value.  Fallible functions
return `Except`, with one error constructor per distinct `Err(...)` site of
the source; every such site produces a descriptive-string `FormatError`-class
error in Rust.
-/

/-- Convert a Lean string literal to the `List Char` representation used
throughout the embedding. -/
def str (s : String) : List Char := s.data

instance {ε α : Type} [DecidableEq ε] [DecidableEq α] : DecidableEq (Except ε α) :=
  fun x y =>
    match x, y with
    | .ok a, .ok b =>
      if h : a = b then .isTrue (by rw [h]) else .isFalse (by simp [h])
    | .error a, .error b =>
      if h : a = b then .isTrue (by rw [h]) else .isFalse (by simp [h])
    | .ok _, .error _ => .isFalse (by simp)
    | .error _, .ok _ => .isFalse (by simp)

/-- Rust `str::contains(&str)`: substring test. -/
def containsSub (needle : List Char) : List Char → Bool
  | [] => needle.isEmpty
  | c :: cs => needle.isPrefixOf (c :: cs) || containsSub needle cs

namespace PoMerger

/-- Entry structure, from `struct PoEntry` in `po_merger.rs` (lines 9-18). -/
structure PoEntry where
  msgctxt : Option (List Char) := none
  msgid : List Char := []
  msgstr : List Char := []
  comments : List (List Char) := []
  is_fuzzy : Bool := false
  line_number : Nat := 0
  source_file : List Char := []
deriving DecidableEq, Repr

/-- Parse states, from `enum ParseState` in `po_merger.rs` (lines 35-42). -/
inductive ParseState where
  | psNone | psComment | psCtxt | psId | psStr
deriving DecidableEq, Repr

/-- One error constructor per `Err(...)` site of `po_merger.rs`; all of them
are descriptive-string errors in the source. -/
inductive MergeErr where
  | noInput
  | badPoString (s : List Char)
  | unexpectedContinuation (line : Nat)
  | formatError (line : Nat) (content : List Char)
  | incompleteEntry (line : Nat)
  | msgstrBeforeMsgid (line : Nat)
  | incompleteAtEnd
deriving DecidableEq, Repr

/-- `escape_po_string` (`po_merger.rs` lines 263-269) is a chain of five
`str::replace` calls; `replaceChar` models one `replace(char, &str)` pass. -/
def replaceChar (t : Char) (r : List Char) : List Char → List Char
  | [] => []
  | c :: cs => (if c = t then r else [c]) ++ replaceChar t r cs

/-- `escape_po_string` from `po_merger.rs` lines 263-269. -/
def escape_po_string (s : List Char) : List Char :=
  replaceChar '\t' (str "\\t")
    (replaceChar '\r' (str "\\r")
      (replaceChar '\n' (str "\\n")
        (replaceChar '"' (str "\\\"")
          (replaceChar '\\' (str "\\\\") s))))

/-- `unescape_po_string` from `po_merger.rs` lines 272-291.  Note the
`Some(x) => result.push(x)` arm: an unrecognized escape keeps only the
following character, the backslash is dropped. -/
def unescape_po_string : List Char → List Char
  | [] => []
  | c :: cs =>
    if c = '\\' then
      match cs with
      | [] => ['\\']
      | x :: cs' =>
        (if x = '\\' then '\\'
         else if x = '"' then '"'
         else if x = 'n' then '\n'
         else if x = 'r' then '\r'
         else if x = 't' then '\t'
         else x) :: unescape_po_string cs'
    else c :: unescape_po_string cs

/-- `parse_po_string` from `po_merger.rs` lines 253-260: the content must be
surrounded by double quotes, which are stripped before unescaping.
(On the one-character input consisting of a lone double quote the source
slices `s[1..0]` and panics; this total model returns the empty content
there — no claim exercises that input.) -/
def parse_po_string (s : List Char) : Except MergeErr (List Char) :=
  if s.head? = some '"' ∧ s.getLast? = some '"' then
    .ok (unescape_po_string ((s.drop 1).dropLast))
  else .error (.badPoString s)

end PoMerger

-- scratch checks
example : PoMerger.unescape_po_string (str "a\\nb") = str "a\nb" := by decide
example : PoMerger.unescape_po_string (str "\\x") = str "x" := by decide
example : PoMerger.escape_po_string (str "a\"b\\") = str "a\\\"b\\\\" := by decide
example : PoMerger.parse_po_string (str "\"OK\"") = .ok (str "OK") := rfl

/-- Rust `str::trim`.  (Rust trims Unicode `White_Space`; the ASCII
whitespace recognized by `Char.isWhitespace` is the fragment relevant to
PO files, which are line-split before trimming.) -/
def trimChars (s : List Char) : List Char :=
  ((s.dropWhile Char.isWhitespace).reverse.dropWhile Char.isWhitespace).reverse

/-- Rust `str::split(sep)` on a single separator character. -/
def splitOnChar (sep : Char) : List Char → List (List Char)
  | [] => [[]]
  | c :: cs =>
    if c = sep then [] :: splitOnChar sep cs
    else
      match splitOnChar sep cs with
      | [] => [[c]]
      | p :: ps => (c :: p) :: ps

/-- Rust `str::lines()`: split on `'\n'`, with no trailing empty line when
the string ends in a newline (carriage returns do not occur at the call
sites embedded here: they have been escaped away beforehand). -/
def linesRust (s : List Char) : List (List Char) :=
  if s = [] then []
  else
    let parts := splitOnChar '\n' s
    if parts.getLast? = some [] then parts.dropLast else parts

/-- Byte-wise lexicographic comparison of Rust `String`s (`String::cmp`),
as a ≤ test.  Comparing UTF-8 strings byte-wise orders them exactly by
code point, so the character-wise comparison is the same order. -/
def charListLe : List Char → List Char → Bool
  | [], _ => true
  | _ :: _, [] => false
  | a :: as, b :: bs => if a < b then true else if b < a then false else charListLe as bs

example : trimChars (str "  msgid \"a\"  ") = str "msgid \"a\"" := by decide
example : splitOnChar '\n' (str "a\n") = [str "a", []] := by decide
example : linesRust (str "a\nb\n") = [str "a", str "b"] := by decide
example : linesRust (str "") = [] := by decide

namespace PoMerger

/-- Key of the merge `HashMap`: `(msgctxt, msgid)` (`po_merger.rs` line 65). -/
abbrev EntryKey := Option (List Char) × List Char

/-- The accumulating `HashMap<(Option<String>, String), PoEntry>` is modelled
as an association list with unique keys; `lookupKey`/`insertKey` model
`HashMap::get`/`HashMap::insert`. -/
abbrev EntryMap := List (EntryKey × PoEntry)

def lookupKey : EntryMap → EntryKey → Option PoEntry
  | [], _ => none
  | (k', v) :: rest, k => if k' = k then some v else lookupKey rest k

def insertKey : EntryMap → EntryKey → PoEntry → EntryMap
  | [], k, v => [(k, v)]
  | (k', v') :: rest, k, v =>
    if k' = k then (k, v) :: rest else (k', v') :: insertKey rest k v

/-- `store_entry` from `po_merger.rs` lines 217-250.  The source function
always returns `Ok(())` and mutates the locked map; here it returns the
updated map. -/
def store_entry (entries : EntryMap) (entry : PoEntry) (file_index : Nat)
    (ignore_main_entries : Bool) (first_file_name : List Char) : EntryMap :=
  let key : EntryKey := (entry.msgctxt, entry.msgid)
  match lookupKey entries key with
  | some existing =>
    if ignore_main_entries = true ∧ existing.source_file = first_file_name then
      entries
    else if file_index = 0 ∨ existing.is_fuzzy = false then
      insertKey entries key entry
    else entries
  | none => insertKey entries key entry

/-- The mutable state threaded through `merge_po_files`' file loop: the
entry map, plus the `header`/`has_header` pair (`po_merger.rs` lines 64-70). -/
structure MergeSt where
  entries : EntryMap := []
  header : List Char := []
  hasHeader : Bool := false
deriving DecidableEq, Repr

/-- The body of the per-line loop of `merge_po_files`
(`po_merger.rs` lines 85-151): one line is consumed, producing the updated
merge state, current entry and parse state, or a format error. -/
def processLine (file_index : Nat) (ignore_main_entries : Bool)
    (first_file_name file_name : List Char) (st : MergeSt) (cur : PoEntry)
    (ps : ParseState) (line_number : Nat) (line : List Char) :
    Except MergeErr (MergeSt × PoEntry × ParseState) :=
  let trimmed := trimChars line
  if trimmed = [] then
    -- blank line: commit the accumulated entry (lines 91-112)
    let st' :=
      if cur.msgid ≠ [] then
        if file_index = 0 ∧ cur.msgid = ['"', '"'] ∧ st.hasHeader = false then
          { st with header := cur.msgstr, hasHeader := true }
        else
          { st with
            entries := store_entry st.entries cur file_index ignore_main_entries
              first_file_name }
      else st
    .ok (st', { line_number := line_number, source_file := file_name }, .psNone)
  else if trimmed.head? = some '#' then
    .ok (st,
      { cur with
        comments := cur.comments ++ [trimmed],
        is_fuzzy := cur.is_fuzzy || containsSub (str "fuzzy") trimmed },
      .psComment)
  else if (str "msgctxt ").isPrefixOf trimmed then do
    let c ← parse_po_string (trimmed.drop 8)
    .ok (st, { cur with msgctxt := some c }, .psCtxt)
  else if (str "msgid ").isPrefixOf trimmed then do
    let c ← parse_po_string (trimmed.drop 6)
    .ok (st, { cur with msgid := c }, .psId)
  else if (str "msgstr ").isPrefixOf trimmed then do
    let c ← parse_po_string (trimmed.drop 7)
    .ok (st, { cur with msgstr := c }, .psStr)
  else if trimmed.head? = some '"' then do
    let content ← parse_po_string trimmed
    match ps with
    | .psCtxt =>
      .ok (st, { cur with msgctxt := cur.msgctxt.map (· ++ content) }, ps)
    | .psId => .ok (st, { cur with msgid := cur.msgid ++ content }, ps)
    | .psStr => .ok (st, { cur with msgstr := cur.msgstr ++ content }, ps)
    | _ => .error (.unexpectedContinuation line_number)
  else .error (.formatError line_number trimmed)

/-- The per-file loop of `merge_po_files` over the lines of one input file,
ending with the end-of-file commit of lines 153-157. -/
def runFileLines (file_index : Nat) (ignore_main_entries : Bool)
    (first_file_name file_name : List Char) :
    List (List Char) → MergeSt → PoEntry → ParseState → Nat →
    Except MergeErr MergeSt
  | [], st, cur, _, _ =>
    .ok (if cur.msgid ≠ [] then
      { st with
        entries := store_entry st.entries cur file_index ignore_main_entries
          first_file_name }
    else st)
  | l :: ls, st, cur, ps, line_number => do
    let (st', cur', ps') ← processLine file_index ignore_main_entries
      first_file_name file_name st cur ps (line_number + 1) l
    runFileLines file_index ignore_main_entries first_file_name file_name ls
      st' cur' ps' (line_number + 1)

/-- The loop over the input files of `merge_po_files` (lines 73-157).
Sources are `(file name, lines)` pairs. -/
def runFiles (ignore_main_entries : Bool) (first_file_name : List Char) :
    Nat → List (List Char × List (List Char)) → MergeSt →
    Except MergeErr MergeSt
  | _, [], st => .ok st
  | file_index, (fname, lns) :: rest, st => do
    let st' ← runFileLines file_index ignore_main_entries first_file_name fname
      lns st { source_file := fname } .psNone 0
    runFiles ignore_main_entries first_file_name (file_index + 1) rest st'

/-- Parsing/folding phase of `merge_po_files` (lines 53-157): all sources
are parsed and folded into one `MergeSt`. -/
def mergeParseFold (sources : List (List Char × List (List Char)))
    (ignore_main_entries : Bool) : Except MergeErr MergeSt :=
  match sources with
  | [] => .error .noInput
  | (f0, _) :: _ => runFiles ignore_main_entries f0 0 sources {}

/-- `write_po_string` from `po_merger.rs` lines 294-309, as the list of
lines it writes.  Note: the only multi-line condition is
`value.contains('\n')`; there is no length threshold in this copy. -/
def write_po_string (key value : List Char) : List (List Char) :=
  if value.contains '\n' then
    (key ++ str " \"\"")
      :: (splitOnChar '\n' value).map
        (fun l => str "\"" ++ escape_po_string l ++ str "\\n\"")
  else
    [key ++ str " \"" ++ escape_po_string value ++ str "\""]

/-- The comparator of `sorted_entries.sort_by` (`po_merger.rs` lines
173-177), as a ≤ test. -/
def sortLe (a b : PoEntry) : Bool :=
  if a.msgid = [] then true
  else if b.msgid = [] then false
  else charListLe a.msgid b.msgid

/-- `entries.values()` followed by the sort of lines 171-177.  The source
iterates a `HashMap` (unspecified value order) and applies a stable sort;
the association list's insertion order stands in for the map's iteration
order, which is irrelevant whenever the sorted keys are distinct. -/
def sortedEntries (m : EntryMap) : List PoEntry :=
  List.insertionSort (fun a b => sortLe a b = true) (m.map (·.2))

/-- The lines written for one entry (`po_merger.rs` lines 189-208):
comments verbatim, optional `msgctxt`, `msgid`, `msgstr`, blank line. -/
def renderEntry (e : PoEntry) : List (List Char) :=
  e.comments
    ++ (match e.msgctxt with
        | some c => write_po_string (str "msgctxt") c
        | none => [])
    ++ write_po_string (str "msgid") e.msgid
    ++ write_po_string (str "msgstr") e.msgstr
    ++ [[]]

/-- Everything `merge_po_files` writes to the output file, as a list of
`writeln!` chunks (`po_merger.rs` lines 163-208): the header block when
`has_header` is set, then all sorted entries. -/
def outputChunks (st : MergeSt) (sorted : List PoEntry) : List (List Char) :=
  (if st.hasHeader then [str "msgid \"\"", st.header, []] else [])
    ++ (sorted.map renderEntry).flatten

/-- `validate_po_file` from `po_merger.rs` lines 312-355, over the lines of
the written file; the accumulator mirrors
`(line_number, in_entry, has_msgid, has_msgstr)`. -/
def validateLoop : List (List Char) → Nat → Bool → Bool → Bool →
    Except MergeErr Unit
  | [], _, in_entry, has_msgid, has_msgstr =>
    if in_entry = true ∧ (has_msgid = false ∨ has_msgstr = false) then
      .error .incompleteAtEnd
    else .ok ()
  | l :: ls, n, in_entry, has_msgid, has_msgstr =>
    let t := trimChars l
    if t = [] then
      if in_entry = true then
        if has_msgid = false ∨ has_msgstr = false then
          .error (.incompleteEntry (n + 1))
        else validateLoop ls (n + 1) false false false
      else validateLoop ls (n + 1) in_entry has_msgid has_msgstr
    else if (str "msgid ").isPrefixOf t then
      validateLoop ls (n + 1) true true has_msgstr
    else if (str "msgstr ").isPrefixOf t then
      if has_msgid = false then .error (.msgstrBeforeMsgid (n + 1))
      else validateLoop ls (n + 1) in_entry has_msgid true
    else validateLoop ls (n + 1) in_entry has_msgid has_msgstr

/-- `merge_po_files` from `po_merger.rs` lines 53-214: parse and fold all
sources, write the output (returned as the list of lines of the written
file), and run `validate_po_file` on it. -/
def merge_po_files (sources : List (List Char × List (List Char)))
    (ignore_main_entries : Bool) : Except MergeErr (List (List Char)) := do
  let st ← mergeParseFold sources ignore_main_entries
  let fileLines :=
    linesRust ((outputChunks st (sortedEntries st.entries)).map
      (· ++ ['\n'])).flatten
  let _ ← validateLoop fileLines 0 false false false
  .ok fileLines

end PoMerger

-- scratch: the C3 failing input — a real header block is silently dropped
example :
    PoMerger.merge_po_files
      [(str "main.po",
        [str "msgid \"\"", str "msgstr \"Language: zh\\n\"", str "",
         str "msgid \"A\"", str "msgstr \"B\""])] false
    = .ok [str "msgid \"A\"", str "msgstr \"B\"", []] := by decide

-- scratch: the C2 example
example :
    (PoMerger.mergeParseFold
      [(str "main.po", [str "msgid \"OK\"", str "msgstr \"确定\""]),
       (str "overlay.po", [str "msgid \"OK\"", str "msgstr \"好\""])]
      false).map
      (fun st => (PoMerger.lookupKey st.entries (none, str "OK")).map
        (·.msgstr)) = .ok (some (str "好")) := by decide

namespace PoConverter

/-- Entry structure of `po_converter.rs` (lines 245-249): msgid/msgstr only. -/
structure PoEntry where
  msgid : List Char := []
  msgstr : List Char := []
deriving DecidableEq, Repr

/-- `unescape_po_string` from `po_converter.rs` lines 143-166.  Unlike the
copy in `po_merger.rs`, an unrecognized escape pushes the backslash AND the
following character. -/
def unescape_po_string : List Char → List Char
  | [] => []
  | c :: cs =>
    if c = '\\' then
      match cs with
      | [] => ['\\']
      | x :: cs' =>
        if x = 'n' then '\n' :: unescape_po_string cs'
        else if x = 'r' then '\r' :: unescape_po_string cs'
        else if x = 't' then '\t' :: unescape_po_string cs'
        else if x = '\\' then '\\' :: unescape_po_string cs'
        else if x = '"' then '"' :: unescape_po_string cs'
        else '\\' :: x :: unescape_po_string cs'
    else c :: unescape_po_string cs

/-- Rust `str::trim_start_matches(prefix)`: strips the prefix repeatedly.
Structural recursion on a fuel argument (one unit per strip, and a
non-empty prefix strips at least one character, so `s.length` units
suffice) so that the definition reduces in the kernel. -/
def trimStartAux (p : List Char) : Nat → List Char → List Char
  | 0, s => s
  | fuel + 1, s =>
    if p ≠ [] ∧ p.isPrefixOf s = true then trimStartAux p fuel (s.drop p.length)
    else s

def trimStartMatches (p s : List Char) : List Char := trimStartAux p s.length s

/-- `extract_content` from `po_converter.rs` lines 124-131. -/
def extract_content (line : List Char) (pre : List Char) : List Char :=
  let content := trimChars (trimStartMatches pre line)
  if content.head? = some '"' ∧ content.getLast? = some '"' ∧
      2 ≤ content.length then
    unescape_po_string ((content.drop 1).dropLast)
  else []

/-- `extract_string_line` from `po_converter.rs` lines 134-140. -/
def extract_string_line (line : List Char) : List Char :=
  if line.head? = some '"' ∧ line.getLast? = some '"' ∧ 2 ≤ line.length then
    unescape_po_string ((line.drop 1).dropLast)
  else []

/-- One line of the chunk-processing closure of `parse_po_file`
(`po_converter.rs` lines 63-95).  State: current entry, `reading_msgid`,
`reading_msgstr`, and the entries committed so far (in commit order).
Note the final arm: a line matching none of the patterns is silently
ignored — this parser has no error path. -/
def chunkLineStep (st : PoEntry × Bool × Bool × List PoEntry)
    (line : List Char) : PoEntry × Bool × Bool × List PoEntry :=
  let cur := st.1
  let reading_msgid := st.2.1
  let reading_msgstr := st.2.2.1
  let acc := st.2.2.2
  let l := trimChars line
  if l = [] ∨ l.head? = some '#' then
    (⟨[], []⟩, false, false,
      if cur.msgid ≠ [] then acc ++ [cur] else acc)
  else if (str "msgid ").isPrefixOf l then
    ({ cur with msgid := extract_content l (str "msgid ") }, true, false, acc)
  else if (str "msgstr ").isPrefixOf l then
    ({ cur with msgstr := extract_content l (str "msgstr ") }, false, true, acc)
  else if l.head? = some '"' ∧ l.getLast? = some '"' then
    let content := extract_string_line l
    if reading_msgid then
      ({ cur with msgid := cur.msgid ++ content }, reading_msgid,
        reading_msgstr, acc)
    else if reading_msgstr then
      ({ cur with msgstr := cur.msgstr ++ content }, reading_msgid,
        reading_msgstr, acc)
    else (cur, reading_msgid, reading_msgstr, acc)
  else (cur, reading_msgid, reading_msgstr, acc)

/-- Whole-chunk processing (`po_converter.rs` lines 58-101): fold the lines,
then commit the trailing entry. -/
def processChunk (chunk : List (List Char)) : List PoEntry :=
  let st := chunk.foldl chunkLineStep (⟨[], []⟩, false, false, [])
  if st.1.msgid ≠ [] then st.2.2.2 ++ [st.1] else st.2.2.2

/-- `lines.chunks(100)` (`po_converter.rs` line 50), on fuel (one unit per
chunk; every chunk consumes at least one element, so `l.length` units
suffice) so that the definition reduces in the kernel. -/
def chunks100Aux : Nat → List α → List (List α)
  | _, [] => []
  | 0, _ :: _ => []
  | fuel + 1, a :: as => (a :: as).take 100 :: chunks100Aux fuel ((a :: as).drop 100)

def chunks100 (l : List α) : List (List α) := chunks100Aux l.length l

/-- Association-list model of the `HashMap<String, PoEntry>` of
`parse_po_file`, keyed by msgid. -/
def lookupId : List (List Char × PoEntry) → List Char → Option PoEntry
  | [], _ => none
  | (k', v) :: rest, k => if k' = k then some v else lookupId rest k

def insertId : List (List Char × PoEntry) → List Char → PoEntry →
    List (List Char × PoEntry)
  | [], k, v => [(k, v)]
  | (k', v') :: rest, k, v =>
    if k' = k then (k, v) :: rest else (k', v') :: insertId rest k v

/-- The parsing part of `parse_po_file` (`po_converter.rs` lines 39-121),
over the list of input lines.  The source processes the 100-line chunks in
parallel, inserting into a lock-guarded map; chunk order stands in for the
lock-acquisition order (they agree for inputs of at most one chunk).
There is no parse-error path: the `Err` arms of the source function concern
file I/O only.  If no entry has an empty msgid, a default header entry is
prepended (lines 105-120). -/
def parse_po_file (lines : List (List Char)) : List (List Char × PoEntry) :=
  let entries :=
    (chunks100 lines).foldl
      (fun m chunk =>
        (processChunk chunk).foldl (fun m e => insertId m e.msgid e) m)
      []
  if (lookupId entries []).isSome then entries
  else
    ([], { msgid := [],
           msgstr := str "Content-Type: text/plain; charset=UTF-8\nContent-Transfer-Encoding: 8bit\n" })
      :: entries

end PoConverter

-- scratch: C7's lenient side — a garbage line parses without error
example :
    PoConverter.parse_po_file [str "garbage"]
    = [([], { msgid := [],
              msgstr := str "Content-Type: text/plain; charset=UTF-8\nContent-Transfer-Encoding: 8bit\n" })] := by
  decide

/-- Byte-wise lexicographic comparison of byte strings, as a ≤ test
(`Ord for &[u8]`, the order underlying `String::cmp`). -/
def byteListLe : List Nat → List Nat → Bool
  | [], _ => true
  | _ :: _, [] => false
  | a :: as, b :: bs => if a < b then true else if b < a then false else byteListLe as bs

namespace PoConverter

/-- One catalog entry at the byte level: the UTF-8 bytes of a `PoEntry`'s
msgid and msgstr (`entry.msgid.as_bytes()` / `entry.msgstr.as_bytes()` in
`write_mo_file`). -/
structure MoSrcEntry where
  msgid : List Nat := []
  msgstr : List Nat := []
deriving DecidableEq, Repr

/-- The four bytes of `u32::to_le_bytes`.  Only the low 32 bits of `n`
matter, so wrapping u32 arithmetic in the source may be modelled by plain
`Nat` arithmetic on the encoder side. -/
def le32 (n : Nat) : List Nat :=
  [n % 256, n / 256 % 256, n / 65536 % 256, n / 16777216 % 256]

/-- Bytes one entry contributes to the string pool: msgid, NUL, msgstr, NUL
(`write_mo_file`, lines 199-213). -/
def blockLen (e : MoSrcEntry) : Nat := e.msgid.length + 1 + (e.msgstr.length + 1)

def sumBlock : List MoSrcEntry → Nat
  | [] => 0
  | e :: es => blockLen e + sumBlock es

/-- The original-strings table: for the entry at string-pool offset `off`,
the `(length, offset)` pair the source pushes at `string_offsets[2*i]`. -/
def origTable : Nat → List MoSrcEntry → List Nat
  | _, [] => []
  | off, e :: es => le32 e.msgid.length ++ le32 off ++ origTable (off + blockLen e) es

/-- The translated-strings table: pairs pushed at `string_offsets[2*i+1]`;
each msgstr sits right after its NUL-terminated msgid. -/
def transTable : Nat → List MoSrcEntry → List Nat
  | _, [] => []
  | off, e :: es =>
    le32 e.msgstr.length ++ le32 (off + (e.msgid.length + 1))
      ++ transTable (off + blockLen e) es

/-- `string_data` (`write_mo_file` lines 199-213). -/
def stringPool : List MoSrcEntry → List Nat
  | [] => []
  | e :: es => e.msgid ++ [0] ++ e.msgstr ++ [0] ++ stringPool es

/-- The 28-byte MO header written at lines 216-222: magic, revision 0,
N, original table offset 28, translated table offset 28+8N, hash size 0,
hash offset 0. -/
def moHeader (n : Nat) : List Nat :=
  le32 0x950412DE ++ le32 0 ++ le32 n ++ le32 28 ++ le32 (28 + 8 * n)
    ++ le32 0 ++ le32 0

/-- All bytes `write_mo_file` writes for an already-sorted entry list. -/
def writeMoBytes (es : List MoSrcEntry) : List Nat :=
  moHeader es.length
    ++ origTable (28 + 16 * es.length) es
    ++ transTable (28 + 16 * es.length) es
    ++ stringPool es

/-- The comparator of the header-first sort inside `write_mo_file`
(lines 188-197), as a ≤ test. -/
def moLe (a b : MoSrcEntry) : Bool :=
  if a.msgid = [] then true
  else if b.msgid = [] then false
  else byteListLe a.msgid b.msgid

/-- `write_mo_file` from `po_converter.rs` lines 169-242: sort the entries
header-first (the source uses the stable `slice::sort_by`; a stable
insertion sort by the same comparator produces the same list whenever at
most one msgid is empty), then emit header, tables and string pool. -/
def write_mo_file (es : List MoSrcEntry) : List Nat :=
  writeMoBytes (List.insertionSort (fun a b => moLe a b = true) es)

end PoConverter

namespace MoConverter

/-- Decoded entry, from `struct MoEntry` in `mo_converter.rs` lines 177-181,
at the byte level (the `String`s hold these UTF-8 bytes). -/
structure MoEntry where
  msgctxt : Option (List Nat) := none
  orig_text : List Nat := []
  trans_text : List Nat := []
deriving DecidableEq, Repr

/-- One constructor per parse-failure `Err(...)` site of
`convert_mo_to_po` (all descriptive-string format errors in the source). -/
inductive MoErr where
  | tooShort
  | badMagic
  | offsetOutOfBounds
  | stringOutOfBounds
  | invalidUtf8
deriving DecidableEq, Repr

/-- Read the little-endian u32 at byte offset `i`
(`u32::from_le_bytes(buffer[i..i+4])`; call sites are bounds-checked, so
the `getD` default is never taken there). -/
def readU32 (buf : List Nat) (i : Nat) : Nat :=
  buf.getD i 0 + 256 * buf.getD (i + 1) 0 + 65536 * buf.getD (i + 2) 0
    + 16777216 * buf.getD (i + 3) 0

/-- `buffer[a..b]`. -/
def sliceBytes (buf : List Nat) (a b : Nat) : List Nat := (buf.drop a).take (b - a)

/-- 2^32: u32 additions/multiplications in the source wrap modulo this. -/
def W32 : Nat := 4294967296

/-- Strict UTF-8 validity of a byte sequence, as checked by
`String::from_utf8`. -/
def utf8Valid : List Nat → Bool
  | [] => true
  | b :: bs =>
    if b < 128 then utf8Valid bs
    else if 194 ≤ b ∧ b ≤ 223 then
      match bs with
      | b1 :: bs1 => decide (128 ≤ b1 ∧ b1 ≤ 191) && utf8Valid bs1
      | [] => false
    else if b = 224 then
      match bs with
      | b1 :: b2 :: bs2 =>
        decide (160 ≤ b1 ∧ b1 ≤ 191 ∧ 128 ≤ b2 ∧ b2 ≤ 191) && utf8Valid bs2
      | _ => false
    else if (225 ≤ b ∧ b ≤ 236) ∨ b = 238 ∨ b = 239 then
      match bs with
      | b1 :: b2 :: bs2 =>
        decide (128 ≤ b1 ∧ b1 ≤ 191 ∧ 128 ≤ b2 ∧ b2 ≤ 191) && utf8Valid bs2
      | _ => false
    else if b = 237 then
      match bs with
      | b1 :: b2 :: bs2 =>
        decide (128 ≤ b1 ∧ b1 ≤ 159 ∧ 128 ≤ b2 ∧ b2 ≤ 191) && utf8Valid bs2
      | _ => false
    else if b = 240 then
      match bs with
      | b1 :: b2 :: b3 :: bs3 =>
        decide (144 ≤ b1 ∧ b1 ≤ 191 ∧ 128 ≤ b2 ∧ b2 ≤ 191 ∧
          128 ≤ b3 ∧ b3 ≤ 191) && utf8Valid bs3
      | _ => false
    else if 241 ≤ b ∧ b ≤ 243 then
      match bs with
      | b1 :: b2 :: b3 :: bs3 =>
        decide (128 ≤ b1 ∧ b1 ≤ 191 ∧ 128 ≤ b2 ∧ b2 ≤ 191 ∧
          128 ≤ b3 ∧ b3 ≤ 191) && utf8Valid bs3
      | _ => false
    else if b = 244 then
      match bs with
      | b1 :: b2 :: b3 :: bs3 =>
        decide (128 ≤ b1 ∧ b1 ≤ 143 ∧ 128 ≤ b2 ∧ b2 ≤ 191 ∧
          128 ≤ b3 ∧ b3 ≤ 191) && utf8Valid bs3
      | _ => false
    else false

/-- The per-index extraction closure of `convert_mo_to_po`
(`mo_converter.rs` lines 47-83).  `o`/`t` are the two table offsets; all
u32 arithmetic wraps modulo 2^32. -/
def decodeOne (buf : List Nat) (o t : Nat) (i : Nat) : Except MoErr MoEntry :=
  let orig_offset := (o + i * 8) % W32
  let trans_offset := (t + i * 8) % W32
  if orig_offset + 8 > buf.length ∨ trans_offset + 8 > buf.length then
    .error .offsetOutOfBounds
  else
    let orig_len := readU32 buf orig_offset
    let orig_str_offset := readU32 buf (orig_offset + 4)
    let trans_len := readU32 buf trans_offset
    let trans_str_offset := readU32 buf (trans_offset + 4)
    if (orig_str_offset + orig_len) % W32 > buf.length ∨
        (trans_str_offset + trans_len) % W32 > buf.length then
      .error .stringOutOfBounds
    else
      let orig := sliceBytes buf orig_str_offset ((orig_str_offset + orig_len) % W32)
      if utf8Valid orig = false then .error .invalidUtf8
      else
        let ctxSplit :=
          match orig.findIdx? (· == 4) with
          | some idx => (some (orig.take idx), orig.drop (idx + 1))
          | none => ((none : Option (List Nat)), orig)
        let trans := sliceBytes buf trans_str_offset
          ((trans_str_offset + trans_len) % W32)
        if utf8Valid trans = false then .error .invalidUtf8
        else .ok { msgctxt := ctxSplit.1, orig_text := ctxSplit.2, trans_text := trans }

/-- `(0..num_strings).map(...).collect::<Result<Vec<_>,_>>()`: all indices
are decoded and the first error (in index order) aborts. -/
def decodeAll (buf : List Nat) (o t : Nat) : List Nat → Except MoErr (List MoEntry)
  | [] => .ok []
  | i :: is => do
    let e ← decodeOne buf o t i
    let rest ← decodeAll buf o t is
    .ok (e :: rest)

/-- The MO-parsing part of `convert_mo_to_po` (`mo_converter.rs` lines
28-83): header checks, then per-index entry extraction. -/
def convert_mo_to_po_entries (buf : List Nat) : Except MoErr (List MoEntry) :=
  if buf.length < 20 then .error .tooShort
  else
    let magic := readU32 buf 0
    if magic ≠ 0x950412DE then .error .badMagic
    else
      let num_strings := readU32 buf 8
      let original_table_offset := readU32 buf 12
      let translation_table_offset := readU32 buf 16
      decodeAll buf original_table_offset translation_table_offset
        (List.range num_strings)

end MoConverter

-- scratch: concrete MO round trip
example :
    MoConverter.convert_mo_to_po_entries
      (PoConverter.write_mo_file [{ msgid := [65], msgstr := [66] }])
    = .ok [{ msgctxt := none, orig_text := [65], trans_text := [66] }] := by
  decide

-- scratch: a msgid containing byte 0x04 does not round trip
example :
    MoConverter.convert_mo_to_po_entries
      (PoConverter.write_mo_file [{ msgid := [4], msgstr := [66] }])
    = .ok [{ msgctxt := some [], orig_text := [], trans_text := [66] }] := by
  decide

/-- UTF-8 byte length of a character (what Rust `String::len` counts). -/
def utf8CharLen (c : Char) : Nat :=
  if c.toNat < 128 then 1
  else if c.toNat < 2048 then 2
  else if c.toNat < 65536 then 3
  else 4

/-- Rust `str::len()`: the UTF-8 byte length of a string. -/
def utf8Len (s : List Char) : Nat := (s.map utf8CharLen).sum

namespace MoConverter

/-- `escape_po_string` from `mo_converter.rs` lines 167-173: unlike the
merger's copy it does NOT escape `'\n'` (multi-line layout handles it). -/
def escape_po_string (s : List Char) : List Char :=
  PoMerger.replaceChar '\t' (str "\\t")
    (PoMerger.replaceChar '\r' (str "\\r")
      (PoMerger.replaceChar '"' (str "\\\"")
        (PoMerger.replaceChar '\\' (str "\\\\") s)))

/-- `write_po_string` from `mo_converter.rs` lines 140-156, as the list of
lines it writes.  The multi-line condition is
`content.contains('\n') || content.len() > 80`, where `len()` counts
UTF-8 bytes; the multi-line form iterates `escaped.lines()`. -/
def write_po_string (pre content : List Char) : List (List Char) :=
  let escaped := escape_po_string content
  if content.contains '\n' ∨ 80 < utf8Len content then
    (pre ++ str " \"\"")
      :: (linesRust escaped).map (fun l => str "\"" ++ l ++ str "\\n\"")
  else
    [pre ++ str " \"" ++ escaped ++ str "\""]

end MoConverter

namespace CsvConverter

/-- The error of `convert_csv_to_po` when no usable row is found
("CSV文件中未找到有效翻译条目"); I/O errors are outside the model. -/
inductive CsvErr where
  | emptyInput
deriving DecidableEq, Repr

/-- `escape_po_string` from `csv_converter.rs` lines 162-170: escape and
surround with double quotes. -/
def escape_po_string (s : List Char) : List Char :=
  str "\"" ++ PoMerger.escape_po_string s ++ str "\""

/-- The character loop of `parse_csv_line` (`csv_converter.rs` lines
105-141): double-quote-aware splitting on commas.  Structural recursion on
a fuel argument (one unit per loop iteration; each iteration consumes at
least one character, so `line.length` units suffice) so that the
definition reduces in the kernel. -/
def csvSplitAux : Nat → List Char → Bool → List Char → List (List Char) →
    List (List Char)
  | _, [], _, cur, acc => acc ++ [cur]
  | 0, _ :: _, _, cur, acc => acc ++ [cur]
  | fuel + 1, c :: rest, in_quotes, cur, acc =>
    if c = '"' then
      if in_quotes then
        match rest with
        | '"' :: rest' => csvSplitAux fuel rest' in_quotes (cur ++ ['"']) acc
        | _ => csvSplitAux fuel rest false cur acc
      else csvSplitAux fuel rest true cur acc
    else if c = ',' then
      if in_quotes then csvSplitAux fuel rest in_quotes (cur ++ [',']) acc
      else csvSplitAux fuel rest in_quotes [] (acc ++ [cur])
    else csvSplitAux fuel rest in_quotes (cur ++ [c]) acc

/-- `parse_csv_line` from `csv_converter.rs` lines 100-159 (the source
returns `Result` but has no error path). -/
def parse_csv_line (line : List Char) : List (List Char) :=
  let result := csvSplitAux line.length line false [] []
  if result.length = 1 ∧ (result.getD 0 []).contains '\t' then
    splitOnChar '\t' (result.getD 0 [])
  else if result.length < 2 then
    if line.contains ';' then (splitOnChar ';' line).map trimChars
    else if line.contains '|' then (splitOnChar '|' line).map trimChars
    else result
  else result

/-- The lines `write_po_header` (`csv_converter.rs` lines 173-191) writes;
`date` is the formatted `Local::now()` string. -/
def write_po_header (date : List Char) : List (List Char) :=
  [str "msgid \"\"",
   str "msgstr \"\"",
   str "\"Project-Id-Version: BLMM Converted CSV\\n\"",
   str "\"POT-Creation-Date: " ++ date ++ str "\\n\"",
   str "\"PO-Revision-Date: " ++ date ++ str "\\n\"",
   str "\"Language: zh_CN\\n\"",
   str "\"MIME-Version: 1.0\\n\"",
   str "\"Content-Type: text/plain; charset=UTF-8\\n\"",
   str "\"Content-Transfer-Encoding: 8bit\\n\"",
   str "\"Converted-From-CSV: true\\n\"",
   []]

/-- Header-row recognition vocabulary (`csv_converter.rs` lines 59-66). -/
def looksLikeHeader (e0 e1 : List Char) : Bool :=
  containsSub (str "源语言") e0 || containsSub (str "原文") e0
    || containsSub (str "msgid") e0 || containsSub (str "ID") e0
    || containsSub (str "翻译") e1 || containsSub (str "目标") e1
    || containsSub (str "译文") e1 || containsSub (str "msgstr") e1

/-- Loop state of `convert_csv_to_po`: `is_first_line`, `has_header`,
`entries_count`, and every line written to the output file so far. -/
structure CsvSt where
  is_first_line : Bool := true
  has_header : Bool := false
  entries_count : Nat := 0
  written : List (List Char) := []
deriving DecidableEq, Repr

/-- The body of the row loop of `convert_csv_to_po`
(`csv_converter.rs` lines 35-88).  The `line[3..]` BOM strip removes the
three bytes of U+FEFF, i.e. exactly one character. -/
def processCsvLine (st : CsvSt) (line : List Char) : CsvSt :=
  let line1 :=
    if st.is_first_line = true ∧ line.head? = some '\uFEFF' then line.drop 1
    else line
  let st := { st with is_first_line := false }
  if trimChars line1 = [] then st
  else
    let entries := parse_csv_line line1
    if entries.length < 2 then st
    else if st.has_header = false ∧
        looksLikeHeader (entries.getD 0 []) (entries.getD 1 []) = true then
      { st with has_header := true }
    else
      let msgid := entries.getD 0 []
      let msgstr := entries.getD 1 []
      if trimChars msgid = [] then st
      else
        { st with
          written := st.written
            ++ [str "msgid " ++ escape_po_string msgid,
                str "msgstr " ++ escape_po_string msgstr,
                []],
          entries_count := st.entries_count + 1 }

/-- `convert_csv_to_po` from `csv_converter.rs` lines 19-96: the output
file is created and the header written before any row is read; the result
is (all lines written to the output file, success-or-error). -/
def convert_csv_to_po (date : List Char) (input : List (List Char)) :
    List (List Char) × Except CsvErr Unit :=
  let final := input.foldl processCsvLine { written := write_po_header date }
  (final.written,
    if final.entries_count = 0 then .error .emptyInput else .ok ())

end CsvConverter

-- scratch: the spec's CSV example
example :
    (CsvConverter.convert_csv_to_po (str "D")
      [str "源语言,翻译", str "Hello,你好"]).1
    = CsvConverter.write_po_header (str "D")
      ++ [str "msgid \"Hello\"", str "msgstr \"你好\"", []] := by decide
example :
    (CsvConverter.convert_csv_to_po (str "D") [str "garbagerow"]).2
    = .error .emptyInput := by decide

/-! ## Supporting lemmas -/

theorem PoMerger.lookupKey_insertKey (m : PoMerger.EntryMap)
    (k : PoMerger.EntryKey) (v : PoMerger.PoEntry) :
    PoMerger.lookupKey (PoMerger.insertKey m k v) k = some v := by
  induction m with
  | nil => simp [PoMerger.insertKey, PoMerger.lookupKey]
  | cons p rest ih =>
    obtain ⟨k', v'⟩ := p
    by_cases h : k' = k
    · simp [PoMerger.insertKey, h, PoMerger.lookupKey]
    · simp [PoMerger.insertKey, h, PoMerger.lookupKey, ih]

/-! ## Claims -/

/-- C1, counterexample: with `ignore_main_entries = false`, an existing
entry that is marked fuzzy and did not come from the main source is NOT
replaced by an incoming non-main entry — the map is unchanged — although
the claim states that a fuzzy existing entry is always replaced. -/
theorem c1_store_entry_counterexample :
    PoMerger.store_entry
      [((none, str "OK"),
        { msgid := str "OK", msgstr := str "old", is_fuzzy := true,
          source_file := str "other.po" })]
      { msgid := str "OK", msgstr := str "new", source_file := str "overlay.po" }
      1 false (str "main.po")
    = [((none, str "OK"),
        { msgid := str "OK", msgstr := str "old", is_fuzzy := true,
          source_file := str "other.po" })]
  ∧ ({ msgid := str "OK", msgstr := str "old", is_fuzzy := true,
        source_file := str "other.po" } : PoMerger.PoEntry).is_fuzzy = true
  ∧ ({ msgid := str "OK", msgstr := str "old", is_fuzzy := true,
        source_file := str "other.po" } : PoMerger.PoEntry)
      ≠ { msgid := str "OK", msgstr := str "new",
          source_file := str "overlay.po" } := by
  refine ⟨by decide, by decide, by decide⟩

/-- C1, amended: in the merge fold, for a key that already has an entry,
and when `ignore_main_entries` is false or the existing entry did not
originate from the main source, the incoming entry replaces the existing
one exactly when the incoming entry comes from the main source
(`file_index = 0`) or the existing entry is NOT marked fuzzy; in every
other case (non-main incoming, fuzzy existing) the existing entry is
kept. -/
theorem c1_store_entry_replacement (m : PoMerger.EntryMap)
    (e existing : PoMerger.PoEntry) (file_index : Nat) (ign : Bool)
    (first : List Char)
    (hex : PoMerger.lookupKey m (e.msgctxt, e.msgid) = some existing)
    (hni : ¬(ign = true ∧ existing.source_file = first))
    (hne : e ≠ existing) :
    (PoMerger.lookupKey (PoMerger.store_entry m e file_index ign first)
        (e.msgctxt, e.msgid) = some e
      ↔ (file_index = 0 ∨ existing.is_fuzzy = false))
  ∧ (¬(file_index = 0 ∨ existing.is_fuzzy = false) →
      PoMerger.lookupKey (PoMerger.store_entry m e file_index ign first)
        (e.msgctxt, e.msgid) = some existing) := by
  have hstore : PoMerger.store_entry m e file_index ign first
      = if file_index = 0 ∨ existing.is_fuzzy = false
        then PoMerger.insertKey m (e.msgctxt, e.msgid) e else m := by
    unfold PoMerger.store_entry
    simp only [hex, if_neg hni]
  rw [hstore]
  by_cases hc : file_index = 0 ∨ existing.is_fuzzy = false
  · rw [if_pos hc]
    refine ⟨?_, fun h => absurd hc h⟩
    simp [PoMerger.lookupKey_insertKey, hc]
  · rw [if_neg hc]
    refine ⟨?_, fun _ => hex⟩
    rw [hex]
    constructor
    · intro h
      exact absurd (Option.some.inj h).symm hne
    · intro h
      exact absurd h hc

/-- C1, witness for the amended theorem at a concrete instance (non-fuzzy
existing entry, non-main incoming entry: the incoming one wins). -/
theorem c1_store_entry_replacement_witness :
    PoMerger.lookupKey
      (PoMerger.store_entry
        [((none, str "OK"),
          { msgid := str "OK", msgstr := str "old", source_file := str "main.po" })]
        { msgid := str "OK", msgstr := str "new", source_file := str "overlay.po" }
        1 false (str "main.po"))
      (none, str "OK")
    = some { msgid := str "OK", msgstr := str "new",
             source_file := str "overlay.po" } :=
  (c1_store_entry_replacement _ _
    { msgid := str "OK", msgstr := str "old", source_file := str "main.po" }
    1 false (str "main.po") (by decide) (by decide) (by decide)).1.mpr
    (Or.inr rfl)

/-- C2: merging `[main, overlay]` where main has the non-fuzzy entry
`("", "OK") → "确定"` and overlay has `("", "OK") → "好"` yields
`"OK" → "好"` with `ignore_main_entries = false`, and `"OK" → "确定"`
with `ignore_main_entries = true`. -/
theorem c2_merge_override_example :
    ((PoMerger.mergeParseFold
      [(str "main.po", [str "msgid \"OK\"", str "msgstr \"确定\""]),
       (str "overlay.po", [str "msgid \"OK\"", str "msgstr \"好\""])]
      false).map
      (fun st => (PoMerger.lookupKey st.entries (none, str "OK")).map (·.msgstr))
      = .ok (some (str "好")))
  ∧ ((PoMerger.mergeParseFold
      [(str "main.po", [str "msgid \"OK\"", str "msgstr \"确定\""]),
       (str "overlay.po", [str "msgid \"OK\"", str "msgstr \"好\""])]
      true).map
      (fun st => (PoMerger.lookupKey st.entries (none, str "OK")).map (·.msgstr))
      = .ok (some (str "确定"))) := by
  refine ⟨by decide, by decide⟩

/-- C3: evaluation of `merge_po_files` at a main source that contains a
real header block (`msgid ""` with a msgstr) followed by one entry.  The
merged output contains no `msgid ""` line at all: the header is dropped,
because the source's header test compares the PARSED msgid against the
two-character literal `""` (line 94 of `po_merger.rs`), which a parsed
header (empty msgid) never equals; the empty-msgid guard on line 92 then
skips the block entirely. -/
theorem c3_header_dropped :
    PoMerger.merge_po_files
      [(str "main.po",
        [str "msgid \"\"", str "msgstr \"Language: zh\\n\"", str "",
         str "msgid \"A\"", str "msgstr \"B\""])] false
      = .ok [str "msgid \"A\"", str "msgstr \"B\"", []]
  ∧ str "msgid \"\"" ∉ [str "msgid \"A\"", str "msgstr \"B\"", []] := by
  refine ⟨by decide, by decide⟩

/-- C5: MO decode of a buffer shorter than 20 bytes fails with the
too-short format error, and MO decode of a buffer of at least 20 bytes
whose first four bytes, read as a little-endian u32, are not 0x950412DE
fails with the bad-magic format error. -/
theorem c5_mo_decode_header_errors :
    (∀ buf : List Nat, buf.length < 20 →
      MoConverter.convert_mo_to_po_entries buf = .error .tooShort)
  ∧ (∀ buf : List Nat, 20 ≤ buf.length →
      MoConverter.readU32 buf 0 ≠ 0x950412DE →
      MoConverter.convert_mo_to_po_entries buf = .error .badMagic) := by
  constructor
  · intro buf h
    simp [MoConverter.convert_mo_to_po_entries, h]
  · intro buf h hm
    simp [MoConverter.convert_mo_to_po_entries, Nat.not_lt.mpr h, hm]

/-- C5, witness: a 19-byte zero buffer is too short; a 20-byte zero buffer
has a bad magic number. -/
theorem c5_mo_decode_header_errors_witness :
    MoConverter.convert_mo_to_po_entries (List.replicate 19 0) = .error .tooShort
  ∧ MoConverter.convert_mo_to_po_entries (List.replicate 20 0) = .error .badMagic :=
  ⟨c5_mo_decode_header_errors.1 _ (by decide),
   c5_mo_decode_header_errors.2 _ (by decide) (by decide)⟩

/-- C6, counterexample: the merger's `unescape_po_string` maps the
two-character input backslash-x to just `x`: the backslash of an
unrecognized escape is NOT preserved. -/
theorem c6_unescape_counterexample :
    PoMerger.unescape_po_string (str "\\x") = str "x"
  ∧ str "x" ≠ str "\\x" := by
  refine ⟨by decide, by decide⟩

/-- C6, amended: for a backslash followed by a character other than
backslash, quote, n, r, t: `po_converter.rs`'s unescape preserves the
backslash and the character verbatim, while `po_merger.rs`'s unescape
drops the backslash and keeps only the character.  Neither function can
fail (both are total). -/
theorem c6_unescape_unknown_escape (c : Char) (rest : List Char)
    (h1 : c ≠ '\\') (h2 : c ≠ '"') (h3 : c ≠ 'n') (h4 : c ≠ 'r')
    (h5 : c ≠ 't') :
    PoConverter.unescape_po_string ('\\' :: c :: rest)
      = '\\' :: c :: PoConverter.unescape_po_string rest
  ∧ PoMerger.unescape_po_string ('\\' :: c :: rest)
      = c :: PoMerger.unescape_po_string rest := by
  constructor
  · simp [PoConverter.unescape_po_string, h1, h2, h3, h4, h5]
  · simp [PoMerger.unescape_po_string, h1, h2, h3, h4, h5]

/-- C6, witness for the amended theorem at the escape backslash-q. -/
theorem c6_unescape_unknown_escape_witness :
    PoConverter.unescape_po_string (str "\\q") = str "\\q"
  ∧ PoMerger.unescape_po_string (str "\\q") = str "q" := by
  have h := c6_unescape_unknown_escape 'q' [] (by decide) (by decide)
    (by decide) (by decide) (by decide)
  exact ⟨h.1.trans (by decide), h.2.trans (by decide)⟩

/-- C7, counterexample: `parse_po_file` of `po_converter.rs` accepts a
non-blank, non-comment input line that starts no keyword and is no quoted
string: the line is silently ignored and parsing SUCCEEDS, returning only
the synthesized default header (the source function has no parse-error
path at all). -/
theorem c7_lenient_parse_counterexample :
    PoConverter.parse_po_file [str "garbage"]
      = [([], { msgid := [],
                msgstr := str "Content-Type: text/plain; charset=UTF-8\nContent-Transfer-Encoding: 8bit\n" })] := by
  decide

/-- C7, amended: the MERGE ENGINE's PO parser (`po_merger.rs`) fails with
a format error on every non-blank line that is no comment, starts none of
`msgctxt `/`msgid `/`msgstr ` and does not begin with a double quote; the
PO→MO converter's parser (`po_converter.rs`), by contrast, silently skips
such lines (see the counterexample). -/
theorem c7_merger_rejects_unknown_line (file_index : Nat) (ign : Bool)
    (first fname : List Char) (st : PoMerger.MergeSt)
    (cur : PoMerger.PoEntry) (ps : PoMerger.ParseState) (n : Nat)
    (line : List Char)
    (h1 : trimChars line ≠ [])
    (h2 : (trimChars line).head? ≠ some '#')
    (h3 : (str "msgctxt ").isPrefixOf (trimChars line) = false)
    (h4 : (str "msgid ").isPrefixOf (trimChars line) = false)
    (h5 : (str "msgstr ").isPrefixOf (trimChars line) = false)
    (h6 : (trimChars line).head? ≠ some '"') :
    PoMerger.processLine file_index ign first fname st cur ps n line
      = .error (.formatError n (trimChars line)) := by
  simp [PoMerger.processLine, h1, h2, h3, h4, h5, h6]

/-- C7, witness for the amended theorem at a concrete garbage line. -/
theorem c7_merger_rejects_unknown_line_witness :
    PoMerger.processLine 0 false (str "a.po") (str "a.po") {} {} .psNone 1
      (str "bogus line")
      = .error (.formatError 1 (str "bogus line")) := by
  have h := c7_merger_rejects_unknown_line 0 false (str "a.po") (str "a.po")
    {} {} .psNone 1 (str "bogus line") (by decide) (by decide) (by decide)
    (by decide) (by decide) (by decide)
  exact h.trans (by decide)

/-- C8, counterexample: the merger's `write_po_string` emits an 81-character
newline-free value on a SINGLE line (no `key ""` block), although the claim
requires the multi-line form for values longer than 80 characters; and the
mo-converter's `write_po_string` emits a 27-character (81-byte) newline-free
value in the MULTI-line form, although the claim promises the single-line
form for values of at most 80 characters. -/
theorem c8_write_po_string_counterexample :
    PoMerger.write_po_string (str "msgid") (List.replicate 81 'a')
      = [str "msgid \"" ++ List.replicate 81 'a' ++ str "\""]
  ∧ (MoConverter.write_po_string (str "msgid") (List.replicate 27 '中')).head?
      = some (str "msgid \"\"")
  ∧ (List.replicate 27 '中').length ≤ 80
  ∧ (List.replicate 27 '中').contains '\n' = false := by
  refine ⟨by decide, by decide, by decide, by decide⟩

/-- C8, amended: the mo-converter's `write_po_string` writes a single line
`key "escaped"` exactly when the value contains no newline and its UTF-8
BYTE length is at most 80, and otherwise writes `key ""` followed by
continuation lines each ending in a literal backslash-n token before the
closing quote; the merger's `write_po_string` has NO length threshold: it
writes the single-line form whenever the value contains no newline, and
otherwise writes `key ""` followed by one continuation line per
newline-separated segment, each ending in the literal backslash-n token. -/
theorem c8_write_po_string_layout (key value : List Char) :
    (value.contains '\n' = false → utf8Len value ≤ 80 →
      MoConverter.write_po_string key value
        = [key ++ str " \"" ++ MoConverter.escape_po_string value ++ str "\""])
  ∧ (value.contains '\n' = true ∨ 80 < utf8Len value →
      ∃ tail, MoConverter.write_po_string key value
          = (key ++ str " \"\"") :: tail
        ∧ ∀ l ∈ tail, ∃ m, l = str "\"" ++ m ++ str "\\n\"")
  ∧ (value.contains '\n' = false →
      PoMerger.write_po_string key value
        = [key ++ str " \"" ++ PoMerger.escape_po_string value ++ str "\""])
  ∧ (value.contains '\n' = true →
      ∃ tail, PoMerger.write_po_string key value = (key ++ str " \"\"") :: tail
        ∧ tail = (splitOnChar '\n' value).map
            (fun l => str "\"" ++ PoMerger.escape_po_string l ++ str "\\n\"")
        ∧ ∀ l ∈ tail, ∃ m, l = str "\"" ++ m ++ str "\\n\"") := by
  refine ⟨?_, ?_, ?_, ?_⟩
  · intro h1 h2
    have hcond : ¬(value.contains '\n' = true ∨ 80 < utf8Len value) := by
      simp only [h1, Bool.false_eq_true, false_or, not_lt]
      exact h2
    simp only [MoConverter.write_po_string]
    rw [if_neg hcond]
  · intro h
    refine ⟨(linesRust (MoConverter.escape_po_string value)).map
      (fun l => str "\"" ++ l ++ str "\\n\""), ?_, ?_⟩
    · simp only [MoConverter.write_po_string]
      rw [if_pos h]
    · intro l hl
      obtain ⟨m, _, hm⟩ := List.mem_map.mp hl
      exact ⟨m, hm.symm⟩
  · intro h1
    have hcond : ¬(value.contains '\n' = true) := by rw [h1]; simp
    simp only [PoMerger.write_po_string]
    rw [if_neg hcond]
  · intro h
    refine ⟨(splitOnChar '\n' value).map
      (fun l => str "\"" ++ PoMerger.escape_po_string l ++ str "\\n\""),
      ?_, rfl, ?_⟩
    · simp only [PoMerger.write_po_string]
      rw [if_pos h]
    · intro l hl
      obtain ⟨m, _, hm⟩ := List.mem_map.mp hl
      exact ⟨PoMerger.escape_po_string m, hm.symm⟩

/-- C8, witness for the amended theorem: single-line and multi-line
instances of both writers. -/
theorem c8_write_po_string_layout_witness :
    MoConverter.write_po_string (str "msgid") (str "ab") = [str "msgid \"ab\""]
  ∧ PoMerger.write_po_string (str "msgid") (str "ab") = [str "msgid \"ab\""]
  ∧ (∃ tail, MoConverter.write_po_string (str "msgid") (str "a\nb")
      = (str "msgid \"\"") :: tail
      ∧ ∀ l ∈ tail, ∃ m, l = str "\"" ++ m ++ str "\\n\"")
  ∧ (∃ tail, PoMerger.write_po_string (str "msgid") (str "a\nb")
      = (str "msgid \"\"") :: tail
      ∧ ∀ l ∈ tail, ∃ m, l = str "\"" ++ m ++ str "\\n\"") := by
  have h1 := (c8_write_po_string_layout (str "msgid") (str "ab")).1
    (by decide) (by decide)
  have h3 := (c8_write_po_string_layout (str "msgid") (str "ab")).2.2.1
    (by decide)
  have h2 := (c8_write_po_string_layout (str "msgid") (str "a\nb")).2.1
    (Or.inl (by decide))
  have h4 := (c8_write_po_string_layout (str "msgid") (str "a\nb")).2.2.2
    (by decide)
  refine ⟨h1.trans (by decide), h3.trans (by decide), h2, ?_⟩
  obtain ⟨tail, ht, _, hall⟩ := h4
  exact ⟨tail, ht, hall⟩

/-- The combined per-character effect of the five `replace` passes of the
merger's `escape_po_string`. -/
def escCharM (c : Char) : List Char :=
  if c = '\\' then str "\\\\"
  else if c = '"' then str "\\\""
  else if c = '\n' then str "\\n"
  else if c = '\r' then str "\\r"
  else if c = '\t' then str "\\t"
  else [c]

theorem PoMerger.replaceChar_append (t : Char) (r : List Char)
    (a b : List Char) :
    PoMerger.replaceChar t r (a ++ b)
      = PoMerger.replaceChar t r a ++ PoMerger.replaceChar t r b := by
  induction a with
  | nil => rfl
  | cons c cs ih => simp [PoMerger.replaceChar, ih]

theorem PoMerger.escape_po_string_cons (c : Char) (s : List Char) :
    PoMerger.escape_po_string (c :: s)
      = escCharM c ++ PoMerger.escape_po_string s := by
  by_cases h1 : c = '\\'
  · subst h1
    simp [PoMerger.escape_po_string, PoMerger.replaceChar, escCharM, str]
  · by_cases h2 : c = '"'
    · subst h2
      simp [PoMerger.escape_po_string, PoMerger.replaceChar, escCharM, str]
    · by_cases h3 : c = '\n'
      · subst h3
        simp [PoMerger.escape_po_string, PoMerger.replaceChar, escCharM, str]
      · by_cases h4 : c = '\r'
        · subst h4
          simp [PoMerger.escape_po_string, PoMerger.replaceChar, escCharM, str]
        · by_cases h5 : c = '\t'
          · subst h5
            simp [PoMerger.escape_po_string, PoMerger.replaceChar, escCharM, str]
          · simp [PoMerger.escape_po_string, PoMerger.replaceChar, escCharM,
              h1, h2, h3, h4, h5]

theorem PoMerger.unescape_cons_ne (c : Char) (x : List Char)
    (h1 : c ≠ '\\') :
    PoMerger.unescape_po_string (c :: x)
      = c :: PoMerger.unescape_po_string x := by
  cases x with
  | nil => simp [PoMerger.unescape_po_string, h1]
  | cons y ys => simp [PoMerger.unescape_po_string, h1]

/-- C9: unescaping the result of escaping any string (in particular any
string over the escape alphabet together with printable text) with the
merger's `escape_po_string`/`unescape_po_string` pair gives back the
original string. -/
theorem c9_escape_unescape_roundtrip (s : List Char) :
    PoMerger.unescape_po_string (PoMerger.escape_po_string s) = s := by
  induction s with
  | nil => rfl
  | cons c cs ih =>
    rw [PoMerger.escape_po_string_cons]
    by_cases h1 : c = '\\'
    · subst h1
      simp [escCharM, PoMerger.unescape_po_string, ih, str]
    · by_cases h2 : c = '"'
      · subst h2
        simp [escCharM, PoMerger.unescape_po_string, ih, str]
      · by_cases h3 : c = '\n'
        · subst h3
          simp [escCharM, PoMerger.unescape_po_string, ih, str]
        · by_cases h4 : c = '\r'
          · subst h4
            simp [escCharM, PoMerger.unescape_po_string, ih, str]
          · by_cases h5 : c = '\t'
            · subst h5
              simp [escCharM, PoMerger.unescape_po_string, ih, str]
            · have hc : escCharM c = [c] := by
                simp [escCharM, h1, h2, h3, h4, h5]
              rw [hc, List.singleton_append, PoMerger.unescape_cons_ne c _ h1, ih]

theorem CsvConverter.processCsvLine_written (st : CsvConverter.CsvSt)
    (line : List Char) :
    ∃ δ, (CsvConverter.processCsvLine st line).written = st.written ++ δ
      ∧ ((CsvConverter.processCsvLine st line).entries_count
            = st.entries_count ∧ δ = []
         ∨ (CsvConverter.processCsvLine st line).entries_count
            = st.entries_count + 1 ∧ δ ≠ []) := by
  simp only [CsvConverter.processCsvLine]
  split <;> (repeat' split) <;>
    first
      | exact ⟨[], by simp, Or.inl ⟨rfl, rfl⟩⟩
      | exact ⟨_, rfl, Or.inr ⟨rfl, by simp⟩⟩

theorem CsvConverter.foldl_processCsvLine (input : List (List Char)) :
    ∀ st : CsvConverter.CsvSt, ∃ extra,
      (input.foldl CsvConverter.processCsvLine st).written = st.written ++ extra
      ∧ st.entries_count ≤ (input.foldl CsvConverter.processCsvLine st).entries_count
      ∧ ((input.foldl CsvConverter.processCsvLine st).entries_count
          = st.entries_count ↔ extra = []) := by
  induction input with
  | nil => intro st; exact ⟨[], by simp, le_refl _, by simp⟩
  | cons l ls ih =>
    intro st
    obtain ⟨δ, hδw, hδc⟩ := CsvConverter.processCsvLine_written st l
    obtain ⟨extra, hw, hle, hiff⟩ := ih (CsvConverter.processCsvLine st l)
    refine ⟨δ ++ extra, ?_, ?_, ?_⟩
    · rw [List.foldl_cons, hw, hδw, List.append_assoc]
    · rw [List.foldl_cons]
      rcases hδc with ⟨hc, _⟩ | ⟨hc, _⟩ <;> omega
    · rw [List.foldl_cons]
      rcases hδc with ⟨hc, hδ⟩ | ⟨hc, hδ⟩
      · subst hδ
        rw [List.nil_append, ← hc]
        exact hiff
      · refine iff_of_false (by omega) ?_
        intro h
        exact hδ (List.append_eq_nil.mp h).1

/-- C10: `convert_csv_to_po` creates the output and writes the complete
synthesized PO header before looking at any CSV row: whatever the input,
the written output starts with the header block, the empty-input error is
returned exactly when nothing beyond the header was written (zero usable
rows), and the header itself is non-empty — so the failure leaves the
output file created and holding the header. -/
theorem c10_csv_header_before_rows (date : List Char)
    (input : List (List Char)) :
    ∃ rest, (CsvConverter.convert_csv_to_po date input).1
        = CsvConverter.write_po_header date ++ rest
      ∧ ((CsvConverter.convert_csv_to_po date input).2
          = .error CsvConverter.CsvErr.emptyInput ↔ rest = [])
      ∧ CsvConverter.write_po_header date ≠ [] := by
  obtain ⟨extra, hw, hle, hiff⟩ := CsvConverter.foldl_processCsvLine input
    { written := CsvConverter.write_po_header date }
  refine ⟨extra, hw, ?_, by simp [CsvConverter.write_po_header]⟩
  show (if (input.foldl CsvConverter.processCsvLine
      { written := CsvConverter.write_po_header date }).entries_count = 0
    then (.error CsvConverter.CsvErr.emptyInput : Except CsvConverter.CsvErr Unit)
    else .ok ()) = .error CsvConverter.CsvErr.emptyInput ↔ extra = []
  by_cases hc : (input.foldl CsvConverter.processCsvLine
      { written := CsvConverter.write_po_header date }).entries_count = 0
  · rw [if_pos hc]
    exact iff_of_true rfl (hiff.mp hc)
  · rw [if_neg hc]
    exact iff_of_false (by simp) (fun h => hc (hiff.mpr h))

/-! ## MO layout lemmas (for C4) -/

/-- String-pool offset of the `i`-th entry's msgid relative to the pool
start: the sum of the block lengths of the preceding entries. -/
def PoConverter.poolPos : List PoConverter.MoSrcEntry → Nat → Nat
  | _, 0 => 0
  | [], _ + 1 => 0
  | e :: es, i + 1 => PoConverter.blockLen e + PoConverter.poolPos es i

theorem PoConverter.le32_length (a : Nat) : (PoConverter.le32 a).length = 4 := rfl

theorem PoConverter.moHeader_length (n : Nat) :
    (PoConverter.moHeader n).length = 28 := by
  simp [PoConverter.moHeader, PoConverter.le32]

theorem PoConverter.origTable_length (es : List PoConverter.MoSrcEntry) :
    ∀ off, (PoConverter.origTable off es).length = 8 * es.length := by
  induction es with
  | nil => intro off; simp [PoConverter.origTable]
  | cons e tl ih =>
    intro off
    simp [PoConverter.origTable, PoConverter.le32, ih]
    omega

theorem PoConverter.transTable_length (es : List PoConverter.MoSrcEntry) :
    ∀ off, (PoConverter.transTable off es).length = 8 * es.length := by
  induction es with
  | nil => intro off; simp [PoConverter.transTable]
  | cons e tl ih =>
    intro off
    simp [PoConverter.transTable, PoConverter.le32, ih]
    omega

theorem PoConverter.stringPool_length (es : List PoConverter.MoSrcEntry) :
    (PoConverter.stringPool es).length = PoConverter.sumBlock es := by
  induction es with
  | nil => rfl
  | cons e tl ih =>
    simp [PoConverter.stringPool, PoConverter.sumBlock, PoConverter.blockLen, ih]
    omega

theorem PoConverter.writeMoBytes_length (es : List PoConverter.MoSrcEntry) :
    (PoConverter.writeMoBytes es).length
      = 28 + 16 * es.length + PoConverter.sumBlock es := by
  simp [PoConverter.writeMoBytes, PoConverter.moHeader_length,
    PoConverter.origTable_length, PoConverter.transTable_length,
    PoConverter.stringPool_length]
  omega

theorem PoConverter.poolPos_add_le (es : List PoConverter.MoSrcEntry) :
    ∀ i, i < es.length →
      PoConverter.poolPos es i + PoConverter.blockLen (es.getD i ⟨[], []⟩)
        ≤ PoConverter.sumBlock es := by
  induction es with
  | nil => intro i h; simp at h
  | cons e tl ih =>
    intro i h
    cases i with
    | zero => simp [PoConverter.poolPos, PoConverter.sumBlock]
    | succ j =>
      have hj : j < tl.length := by simpa using h
      have := ih j hj
      simp only [PoConverter.poolPos, PoConverter.sumBlock, List.getD_cons_succ]
      omega

theorem MoConverter.readU32_le32 (a : Nat) (rest : List Nat) :
    MoConverter.readU32 (PoConverter.le32 a ++ rest) 0 = a % MoConverter.W32 := by
  show a % 256 + 256 * (a / 256 % 256) + 65536 * (a / 65536 % 256)
      + 16777216 * (a / 16777216 % 256) = a % 4294967296
  omega

theorem MoConverter.readU32_append (A rest : List Nat) (k : Nat) :
    MoConverter.readU32 (A ++ rest) (A.length + k) = MoConverter.readU32 rest k := by
  unfold MoConverter.readU32
  rw [List.getD_append_right _ _ _ _ (by omega),
      List.getD_append_right _ _ _ _ (by omega),
      List.getD_append_right _ _ _ _ (by omega),
      List.getD_append_right _ _ _ _ (by omega)]
  have e0 : A.length + k - A.length = k := by omega
  have e1 : A.length + k + 1 - A.length = k + 1 := by omega
  have e2 : A.length + k + 2 - A.length = k + 2 := by omega
  have e3 : A.length + k + 3 - A.length = k + 3 := by omega
  rw [e0, e1, e2, e3]

theorem MoConverter.readU32_peel (a : Nat) (rest : List Nat) (k : Nat) :
    MoConverter.readU32 (PoConverter.le32 a ++ rest) (4 + k)
      = MoConverter.readU32 rest k := by
  have h := MoConverter.readU32_append (PoConverter.le32 a) rest k
  rwa [PoConverter.le32_length] at h

theorem MoConverter.readU32_at8 (a b : Nat) (X : List Nat) :
    MoConverter.readU32 (PoConverter.le32 a ++ (PoConverter.le32 b ++ X)) 8
      = MoConverter.readU32 X 0 := by
  have h : (8 : Nat) = 4 + (4 + 0) := rfl
  rw [h, MoConverter.readU32_peel, MoConverter.readU32_peel]

theorem MoConverter.readU32_at12 (a b c : Nat) (X : List Nat) :
    MoConverter.readU32
      (PoConverter.le32 a ++ (PoConverter.le32 b ++ (PoConverter.le32 c ++ X))) 12
      = MoConverter.readU32 X 0 := by
  have h : (12 : Nat) = 4 + (4 + (4 + 0)) := rfl
  rw [h, MoConverter.readU32_peel, MoConverter.readU32_peel,
    MoConverter.readU32_peel]

theorem MoConverter.readU32_at16 (a b c d : Nat) (X : List Nat) :
    MoConverter.readU32
      (PoConverter.le32 a ++ (PoConverter.le32 b ++ (PoConverter.le32 c
        ++ (PoConverter.le32 d ++ X)))) 16
      = MoConverter.readU32 X 0 := by
  have h : (16 : Nat) = 4 + (4 + (4 + (4 + 0))) := rfl
  rw [h, MoConverter.readU32_peel, MoConverter.readU32_peel,
    MoConverter.readU32_peel, MoConverter.readU32_peel]

theorem MoConverter.moHeader_read0 (n : Nat) (R : List Nat) :
    MoConverter.readU32 (PoConverter.moHeader n ++ R) 0 = 0x950412DE := by
  unfold PoConverter.moHeader
  simp only [List.append_assoc]
  rw [MoConverter.readU32_le32]
  norm_num [MoConverter.W32]

theorem MoConverter.moHeader_read8 (n : Nat) (R : List Nat) :
    MoConverter.readU32 (PoConverter.moHeader n ++ R) 8
      = n % MoConverter.W32 := by
  unfold PoConverter.moHeader
  simp only [List.append_assoc]
  rw [MoConverter.readU32_at8, MoConverter.readU32_le32]

theorem MoConverter.moHeader_read12 (n : Nat) (R : List Nat) :
    MoConverter.readU32 (PoConverter.moHeader n ++ R) 12 = 28 := by
  unfold PoConverter.moHeader
  simp only [List.append_assoc]
  rw [MoConverter.readU32_at12, MoConverter.readU32_le32]
  norm_num [MoConverter.W32]

theorem MoConverter.moHeader_read16 (n : Nat) (R : List Nat) :
    MoConverter.readU32 (PoConverter.moHeader n ++ R) 16
      = (28 + 8 * n) % MoConverter.W32 := by
  unfold PoConverter.moHeader
  simp only [List.append_assoc]
  rw [MoConverter.readU32_at16, MoConverter.readU32_le32]

theorem MoConverter.origTable_read_len (es : List PoConverter.MoSrcEntry) :
    ∀ (i off : Nat) (rest : List Nat), i < es.length →
      MoConverter.readU32 (PoConverter.origTable off es ++ rest) (8 * i)
        = (es.getD i ⟨[], []⟩).msgid.length % MoConverter.W32 := by
  induction es with
  | nil => intro i off rest h; simp at h
  | cons e tl ih =>
    intro i off rest h
    cases i with
    | zero =>
      simp only [Nat.mul_zero, List.getD_cons_zero]
      unfold PoConverter.origTable
      simp only [List.append_assoc]
      rw [MoConverter.readU32_le32]
    | succ j =>
      have hj : j < tl.length := by simpa using h
      unfold PoConverter.origTable
      simp only [List.append_assoc]
      have h8 : 8 * (j + 1) = 4 + (4 + 8 * j) := by ring
      rw [h8, MoConverter.readU32_peel, MoConverter.readU32_peel,
        ih j (off + PoConverter.blockLen e) rest hj]
      simp only [List.getD_cons_succ]

theorem MoConverter.origTable_read_off (es : List PoConverter.MoSrcEntry) :
    ∀ (i off : Nat) (rest : List Nat), i < es.length →
      MoConverter.readU32 (PoConverter.origTable off es ++ rest) (8 * i + 4)
        = (off + PoConverter.poolPos es i) % MoConverter.W32 := by
  induction es with
  | nil => intro i off rest h; simp at h
  | cons e tl ih =>
    intro i off rest h
    cases i with
    | zero =>
      unfold PoConverter.origTable
      simp only [List.append_assoc, Nat.mul_zero, Nat.zero_add]
      have hp := MoConverter.readU32_peel e.msgid.length
        (PoConverter.le32 off ++ (PoConverter.origTable
          (off + PoConverter.blockLen e) tl ++ rest)) 0
      simp only [Nat.add_zero] at hp
      rw [hp, MoConverter.readU32_le32]
      simp [PoConverter.poolPos]
    | succ j =>
      have hj : j < tl.length := by simpa using h
      unfold PoConverter.origTable
      simp only [List.append_assoc]
      have h8 : 8 * (j + 1) + 4 = 4 + (4 + (8 * j + 4)) := by ring
      rw [h8, MoConverter.readU32_peel, MoConverter.readU32_peel,
        ih j (off + PoConverter.blockLen e) rest hj]
      have he : off + PoConverter.blockLen e + PoConverter.poolPos tl j
          = off + PoConverter.poolPos (e :: tl) (j + 1) := by
        simp [PoConverter.poolPos]
        omega
      rw [he]

theorem MoConverter.transTable_read_len (es : List PoConverter.MoSrcEntry) :
    ∀ (i off : Nat) (rest : List Nat), i < es.length →
      MoConverter.readU32 (PoConverter.transTable off es ++ rest) (8 * i)
        = (es.getD i ⟨[], []⟩).msgstr.length % MoConverter.W32 := by
  induction es with
  | nil => intro i off rest h; simp at h
  | cons e tl ih =>
    intro i off rest h
    cases i with
    | zero =>
      simp only [Nat.mul_zero, List.getD_cons_zero]
      unfold PoConverter.transTable
      simp only [List.append_assoc]
      rw [MoConverter.readU32_le32]
    | succ j =>
      have hj : j < tl.length := by simpa using h
      unfold PoConverter.transTable
      simp only [List.append_assoc]
      have h8 : 8 * (j + 1) = 4 + (4 + 8 * j) := by ring
      rw [h8, MoConverter.readU32_peel, MoConverter.readU32_peel,
        ih j (off + PoConverter.blockLen e) rest hj]
      simp only [List.getD_cons_succ]

theorem MoConverter.transTable_read_off (es : List PoConverter.MoSrcEntry) :
    ∀ (i off : Nat) (rest : List Nat), i < es.length →
      MoConverter.readU32 (PoConverter.transTable off es ++ rest) (8 * i + 4)
        = (off + PoConverter.poolPos es i
            + ((es.getD i ⟨[], []⟩).msgid.length + 1)) % MoConverter.W32 := by
  induction es with
  | nil => intro i off rest h; simp at h
  | cons e tl ih =>
    intro i off rest h
    cases i with
    | zero =>
      unfold PoConverter.transTable
      simp only [List.append_assoc, Nat.mul_zero, Nat.zero_add]
      have hp := MoConverter.readU32_peel e.msgstr.length
        (PoConverter.le32 (off + (e.msgid.length + 1))
          ++ (PoConverter.transTable (off + PoConverter.blockLen e) tl ++ rest)) 0
      simp only [Nat.add_zero] at hp
      rw [hp, MoConverter.readU32_le32]
      simp [PoConverter.poolPos]
    | succ j =>
      have hj : j < tl.length := by simpa using h
      unfold PoConverter.transTable
      simp only [List.append_assoc]
      have h8 : 8 * (j + 1) + 4 = 4 + (4 + (8 * j + 4)) := by ring
      rw [h8, MoConverter.readU32_peel, MoConverter.readU32_peel,
        ih j (off + PoConverter.blockLen e) rest hj]
      have he : off + PoConverter.blockLen e + PoConverter.poolPos tl j
            + ((tl.getD j ⟨[], []⟩).msgid.length + 1)
          = off + PoConverter.poolPos (e :: tl) (j + 1)
            + (((e :: tl).getD (j + 1) ⟨[], []⟩).msgid.length + 1) := by
        simp [PoConverter.poolPos]
        omega
      rw [he]

theorem PoConverter.stringPool_drop (es : List PoConverter.MoSrcEntry) :
    ∀ i, i < es.length →
      (PoConverter.stringPool es).drop (PoConverter.poolPos es i)
        = (es.getD i ⟨[], []⟩).msgid ++ [0] ++ (es.getD i ⟨[], []⟩).msgstr
          ++ [0] ++ PoConverter.stringPool (es.drop (i + 1)) := by
  induction es with
  | nil => intro i h; simp at h
  | cons e tl ih =>
    intro i h
    cases i with
    | zero => simp [PoConverter.poolPos, PoConverter.stringPool]
    | succ j =>
      have hj : j < tl.length := by simpa using h
      have hA : ((e.msgid ++ [0] ++ e.msgstr ++ [0]) : List Nat).length
          = PoConverter.blockLen e := by
        simp [PoConverter.blockLen]
        omega
      have hcons : PoConverter.stringPool (e :: tl)
          = (e.msgid ++ [0] ++ e.msgstr ++ [0]) ++ PoConverter.stringPool tl :=
        rfl
      rw [hcons]
      simp only [PoConverter.poolPos, List.getD_cons_succ, List.drop_succ_cons]
      rw [← hA, List.drop_append]
      exact ih j hj

theorem MoConverter.slice_pool_msgid (es : List PoConverter.MoSrcEntry)
    (i : Nat) (h : i < es.length) (Pre : List Nat) :
    MoConverter.sliceBytes (Pre ++ PoConverter.stringPool es)
        (Pre.length + PoConverter.poolPos es i)
        (Pre.length + PoConverter.poolPos es i
          + (es.getD i ⟨[], []⟩).msgid.length)
      = (es.getD i ⟨[], []⟩).msgid := by
  unfold MoConverter.sliceBytes
  rw [List.drop_append, PoConverter.stringPool_drop es i h]
  have hd : Pre.length + PoConverter.poolPos es i
        + (es.getD i ⟨[], []⟩).msgid.length
      - (Pre.length + PoConverter.poolPos es i)
      = (es.getD i ⟨[], []⟩).msgid.length := by omega
  rw [hd, List.append_assoc, List.append_assoc, List.append_assoc,
    List.take_left]

theorem MoConverter.slice_pool_msgstr (es : List PoConverter.MoSrcEntry)
    (i : Nat) (h : i < es.length) (Pre : List Nat) :
    MoConverter.sliceBytes (Pre ++ PoConverter.stringPool es)
        (Pre.length + PoConverter.poolPos es i
          + ((es.getD i ⟨[], []⟩).msgid.length + 1))
        (Pre.length + PoConverter.poolPos es i
          + ((es.getD i ⟨[], []⟩).msgid.length + 1)
          + (es.getD i ⟨[], []⟩).msgstr.length)
      = (es.getD i ⟨[], []⟩).msgstr := by
  unfold MoConverter.sliceBytes
  have hidx : Pre.length + PoConverter.poolPos es i
        + ((es.getD i ⟨[], []⟩).msgid.length + 1)
      = Pre.length + (PoConverter.poolPos es i
        + ((es.getD i ⟨[], []⟩).msgid.length + 1)) := by omega
  rw [hidx, List.drop_append, ← List.drop_drop,
    PoConverter.stringPool_drop es i h]
  have hd : Pre.length + (PoConverter.poolPos es i
        + ((es.getD i ⟨[], []⟩).msgid.length + 1))
        + (es.getD i ⟨[], []⟩).msgstr.length
      - (Pre.length + (PoConverter.poolPos es i
          + ((es.getD i ⟨[], []⟩).msgid.length + 1)))
      = (es.getD i ⟨[], []⟩).msgstr.length := by omega
  rw [hd]
  have hB : ((es.getD i ⟨[], []⟩).msgid ++ [0] : List Nat).length
      = (es.getD i ⟨[], []⟩).msgid.length + 1 := by simp
  rw [List.append_assoc, List.append_assoc, List.drop_left' hB,
    List.take_left]

theorem MoConverter.readU32_after_header (n : Nat) (R : List Nat) (k : Nat) :
    MoConverter.readU32 (PoConverter.moHeader n ++ R) (28 + k)
      = MoConverter.readU32 R k := by
  have h := MoConverter.readU32_append (PoConverter.moHeader n) R k
  rwa [PoConverter.moHeader_length] at h

theorem MoConverter.readU32_after_origTable (off : Nat)
    (es : List PoConverter.MoSrcEntry) (R : List Nat) (k : Nat) :
    MoConverter.readU32 (PoConverter.origTable off es ++ R) (8 * es.length + k)
      = MoConverter.readU32 R k := by
  have h := MoConverter.readU32_append (PoConverter.origTable off es) R k
  rwa [PoConverter.origTable_length] at h

theorem MoConverter.writeMo_read_origLen (es : List PoConverter.MoSrcEntry)
    (i : Nat) (hi : i < es.length) :
    MoConverter.readU32 (PoConverter.writeMoBytes es) (28 + 8 * i)
      = (es.getD i ⟨[], []⟩).msgid.length % MoConverter.W32 := by
  unfold PoConverter.writeMoBytes
  simp only [List.append_assoc]
  rw [MoConverter.readU32_after_header]
  exact MoConverter.origTable_read_len es i _ _ hi

theorem MoConverter.writeMo_read_origOff (es : List PoConverter.MoSrcEntry)
    (i : Nat) (hi : i < es.length) :
    MoConverter.readU32 (PoConverter.writeMoBytes es) (28 + 8 * i + 4)
      = (28 + 16 * es.length + PoConverter.poolPos es i) % MoConverter.W32 := by
  unfold PoConverter.writeMoBytes
  simp only [List.append_assoc]
  have hidx : 28 + 8 * i + 4 = 28 + (8 * i + 4) := by omega
  rw [hidx, MoConverter.readU32_after_header]
  exact MoConverter.origTable_read_off es i _ _ hi

theorem MoConverter.writeMo_read_transLen (es : List PoConverter.MoSrcEntry)
    (i : Nat) (hi : i < es.length) :
    MoConverter.readU32 (PoConverter.writeMoBytes es) (28 + 8 * es.length + 8 * i)
      = (es.getD i ⟨[], []⟩).msgstr.length % MoConverter.W32 := by
  unfold PoConverter.writeMoBytes
  simp only [List.append_assoc]
  have hidx : 28 + 8 * es.length + 8 * i = 28 + (8 * es.length + 8 * i) := by
    omega
  rw [hidx, MoConverter.readU32_after_header,
    MoConverter.readU32_after_origTable]
  exact MoConverter.transTable_read_len es i _ _ hi

theorem MoConverter.writeMo_read_transOff (es : List PoConverter.MoSrcEntry)
    (i : Nat) (hi : i < es.length) :
    MoConverter.readU32 (PoConverter.writeMoBytes es)
        (28 + 8 * es.length + 8 * i + 4)
      = (28 + 16 * es.length + PoConverter.poolPos es i
          + ((es.getD i ⟨[], []⟩).msgid.length + 1)) % MoConverter.W32 := by
  unfold PoConverter.writeMoBytes
  simp only [List.append_assoc]
  have hidx : 28 + 8 * es.length + 8 * i + 4
      = 28 + (8 * es.length + (8 * i + 4)) := by omega
  rw [hidx, MoConverter.readU32_after_header,
    MoConverter.readU32_after_origTable]
  exact MoConverter.transTable_read_off es i _ _ hi

theorem MoConverter.writeMo_pre_length (es : List PoConverter.MoSrcEntry) :
    ((PoConverter.moHeader es.length
        ++ PoConverter.origTable (28 + 16 * es.length) es)
      ++ PoConverter.transTable (28 + 16 * es.length) es).length
      = 28 + 16 * es.length := by
  simp [PoConverter.moHeader_length, PoConverter.origTable_length,
    PoConverter.transTable_length]
  omega

theorem MoConverter.writeMo_slice_msgid (es : List PoConverter.MoSrcEntry)
    (i : Nat) (hi : i < es.length) :
    MoConverter.sliceBytes (PoConverter.writeMoBytes es)
        (28 + 16 * es.length + PoConverter.poolPos es i)
        (28 + 16 * es.length + PoConverter.poolPos es i
          + (es.getD i ⟨[], []⟩).msgid.length)
      = (es.getD i ⟨[], []⟩).msgid := by
  unfold PoConverter.writeMoBytes
  have h := MoConverter.slice_pool_msgid es i hi
    ((PoConverter.moHeader es.length
        ++ PoConverter.origTable (28 + 16 * es.length) es)
      ++ PoConverter.transTable (28 + 16 * es.length) es)
  rwa [MoConverter.writeMo_pre_length] at h

theorem MoConverter.writeMo_slice_msgstr (es : List PoConverter.MoSrcEntry)
    (i : Nat) (hi : i < es.length) :
    MoConverter.sliceBytes (PoConverter.writeMoBytes es)
        (28 + 16 * es.length + PoConverter.poolPos es i
          + ((es.getD i ⟨[], []⟩).msgid.length + 1))
        (28 + 16 * es.length + PoConverter.poolPos es i
          + ((es.getD i ⟨[], []⟩).msgid.length + 1)
          + (es.getD i ⟨[], []⟩).msgstr.length)
      = (es.getD i ⟨[], []⟩).msgstr := by
  unfold PoConverter.writeMoBytes
  have h := MoConverter.slice_pool_msgstr es i hi
    ((PoConverter.moHeader es.length
        ++ PoConverter.origTable (28 + 16 * es.length) es)
      ++ PoConverter.transTable (28 + 16 * es.length) es)
  rwa [MoConverter.writeMo_pre_length] at h

set_option maxHeartbeats 2000000 in
theorem MoConverter.decodeOne_writeMo (es : List PoConverter.MoSrcEntry)
    (i : Nat) (hi : i < es.length)
    (hsize : 28 + 16 * es.length + PoConverter.sumBlock es < MoConverter.W32)
    (hctx : 4 ∉ (es.getD i ⟨[], []⟩).msgid)
    (hid : MoConverter.utf8Valid (es.getD i ⟨[], []⟩).msgid = true)
    (hstr : MoConverter.utf8Valid (es.getD i ⟨[], []⟩).msgstr = true) :
    MoConverter.decodeOne (PoConverter.writeMoBytes es) 28
        (28 + 8 * es.length) i
      = .ok { msgctxt := none, orig_text := (es.getD i ⟨[], []⟩).msgid,
              trans_text := (es.getD i ⟨[], []⟩).msgstr } := by
  have hsz : 28 + 16 * es.length + PoConverter.sumBlock es < 4294967296 :=
    hsize
  have hlen := PoConverter.writeMoBytes_length es
  have hpp := PoConverter.poolPos_add_le es i hi
  have hbl : PoConverter.blockLen (es.getD i ⟨[], []⟩)
      = (es.getD i ⟨[], []⟩).msgid.length + 1
        + ((es.getD i ⟨[], []⟩).msgstr.length + 1) := rfl
  simp only [MoConverter.decodeOne, MoConverter.W32]
  have ho : (28 + i * 8) % 4294967296 = 28 + 8 * i := by
    have he : 28 + i * 8 = 28 + 8 * i := by ring
    rw [he]
    exact Nat.mod_eq_of_lt (by omega)
  have ht : (28 + 8 * es.length + i * 8) % 4294967296
      = 28 + 8 * es.length + 8 * i := by
    have he : 28 + 8 * es.length + i * 8 = 28 + 8 * es.length + 8 * i := by
      ring
    rw [he]
    exact Nat.mod_eq_of_lt (by omega)
  rw [ho, ht, hlen]
  have hc1 : ¬(28 + 8 * i + 8
        > 28 + 16 * es.length + PoConverter.sumBlock es
      ∨ 28 + 8 * es.length + 8 * i + 8
        > 28 + 16 * es.length + PoConverter.sumBlock es) := by omega
  rw [if_neg hc1]
  rw [MoConverter.writeMo_read_origLen es i hi,
    MoConverter.writeMo_read_origOff es i hi,
    MoConverter.writeMo_read_transLen es i hi,
    MoConverter.writeMo_read_transOff es i hi]
  have hmid : (es.getD i ⟨[], []⟩).msgid.length % MoConverter.W32
      = (es.getD i ⟨[], []⟩).msgid.length :=
    Nat.mod_eq_of_lt (by simp only [MoConverter.W32]; omega)
  have hmstr : (es.getD i ⟨[], []⟩).msgstr.length % MoConverter.W32
      = (es.getD i ⟨[], []⟩).msgstr.length :=
    Nat.mod_eq_of_lt (by simp only [MoConverter.W32]; omega)
  have hoff1 : (28 + 16 * es.length + PoConverter.poolPos es i)
        % MoConverter.W32
      = 28 + 16 * es.length + PoConverter.poolPos es i :=
    Nat.mod_eq_of_lt (by simp only [MoConverter.W32]; omega)
  have hoff2 : (28 + 16 * es.length + PoConverter.poolPos es i
        + ((es.getD i ⟨[], []⟩).msgid.length + 1)) % MoConverter.W32
      = 28 + 16 * es.length + PoConverter.poolPos es i
        + ((es.getD i ⟨[], []⟩).msgid.length + 1) :=
    Nat.mod_eq_of_lt (by simp only [MoConverter.W32]; omega)
  rw [hmid, hmstr, hoff1, hoff2]
  have hb1 : (28 + 16 * es.length + PoConverter.poolPos es i
        + (es.getD i ⟨[], []⟩).msgid.length) % 4294967296
      = 28 + 16 * es.length + PoConverter.poolPos es i
        + (es.getD i ⟨[], []⟩).msgid.length :=
    Nat.mod_eq_of_lt (by omega)
  have hb2 : (28 + 16 * es.length + PoConverter.poolPos es i
        + ((es.getD i ⟨[], []⟩).msgid.length + 1)
        + (es.getD i ⟨[], []⟩).msgstr.length) % 4294967296
      = 28 + 16 * es.length + PoConverter.poolPos es i
        + ((es.getD i ⟨[], []⟩).msgid.length + 1)
        + (es.getD i ⟨[], []⟩).msgstr.length :=
    Nat.mod_eq_of_lt (by omega)
  rw [hb1, hb2]
  have hc2 : ¬(28 + 16 * es.length + PoConverter.poolPos es i
        + (es.getD i ⟨[], []⟩).msgid.length
        > 28 + 16 * es.length + PoConverter.sumBlock es
      ∨ 28 + 16 * es.length + PoConverter.poolPos es i
        + ((es.getD i ⟨[], []⟩).msgid.length + 1)
        + (es.getD i ⟨[], []⟩).msgstr.length
        > 28 + 16 * es.length + PoConverter.sumBlock es) := by omega
  rw [if_neg hc2]
  rw [MoConverter.writeMo_slice_msgid es i hi]
  rw [if_neg (by simp only [hid]; simp)]
  have hfind : (es.getD i ⟨[], []⟩).msgid.findIdx? (· == 4) = none := by
    rw [List.findIdx?_eq_none_iff]
    intro x hx
    have hx4 : x ≠ 4 := fun h => hctx (h ▸ hx)
    simp [hx4]
  rw [hfind]
  rw [MoConverter.writeMo_slice_msgstr es i hi]
  rw [if_neg (by simp only [hstr]; simp)]

theorem MoConverter.decodeAll_ok (buf : List Nat) (o t : Nat)
    (g : Nat → MoConverter.MoEntry) :
    ∀ l : List Nat,
      (∀ i ∈ l, MoConverter.decodeOne buf o t i = .ok (g i)) →
      MoConverter.decodeAll buf o t l = .ok (l.map g) := by
  intro l
  induction l with
  | nil => intro _; rfl
  | cons i is ih =>
    intro h
    simp only [MoConverter.decodeAll]
    rw [h i (by simp), ih (fun j hj => h j (by simp [hj]))]
    rfl

theorem MoConverter.range_map_getD (es : List PoConverter.MoSrcEntry)
    (F : PoConverter.MoSrcEntry → MoConverter.MoEntry) :
    (List.range es.length).map (fun i => F (es.getD i ⟨[], []⟩))
      = es.map F := by
  induction es with
  | nil => rfl
  | cons e tl ih =>
    simp only [List.length_cons, List.range_succ_eq_map, List.map_cons,
      List.map_map, List.getD_cons_zero]
    have hc : ((fun i => F ((e :: tl).getD i ⟨[], []⟩)) ∘ Nat.succ)
        = fun i => F (tl.getD i ⟨[], []⟩) := by
      funext i
      simp [Function.comp, List.getD_cons_succ]
    rw [hc, ih]

/-- The decoded form of an encoded entry: no context, same texts. -/
def MoConverter.decodedOf (e : PoConverter.MoSrcEntry) : MoConverter.MoEntry :=
  { msgctxt := none, orig_text := e.msgid, trans_text := e.msgstr }

theorem MoConverter.writeMoBytes_roundtrip (es : List PoConverter.MoSrcEntry)
    (hsize : 28 + 16 * es.length + PoConverter.sumBlock es < MoConverter.W32)
    (hctx : ∀ e ∈ es, 4 ∉ e.msgid)
    (hutf : ∀ e ∈ es, MoConverter.utf8Valid e.msgid = true
      ∧ MoConverter.utf8Valid e.msgstr = true) :
    MoConverter.convert_mo_to_po_entries (PoConverter.writeMoBytes es)
      = .ok (es.map MoConverter.decodedOf) := by
  have hsz : 28 + 16 * es.length + PoConverter.sumBlock es < 4294967296 :=
    hsize
  have hlen := PoConverter.writeMoBytes_length es
  have hm : MoConverter.readU32 (PoConverter.writeMoBytes es) 0
      = 0x950412DE := by
    unfold PoConverter.writeMoBytes
    simp only [List.append_assoc]
    exact MoConverter.moHeader_read0 _ _
  have hn : MoConverter.readU32 (PoConverter.writeMoBytes es) 8
      = es.length := by
    unfold PoConverter.writeMoBytes
    simp only [List.append_assoc]
    rw [MoConverter.moHeader_read8]
    exact Nat.mod_eq_of_lt (by simp only [MoConverter.W32]; omega)
  have h12 : MoConverter.readU32 (PoConverter.writeMoBytes es) 12 = 28 := by
    unfold PoConverter.writeMoBytes
    simp only [List.append_assoc]
    exact MoConverter.moHeader_read12 _ _
  have h16 : MoConverter.readU32 (PoConverter.writeMoBytes es) 16
      = 28 + 8 * es.length := by
    unfold PoConverter.writeMoBytes
    simp only [List.append_assoc]
    rw [MoConverter.moHeader_read16]
    exact Nat.mod_eq_of_lt (by simp only [MoConverter.W32]; omega)
  unfold MoConverter.convert_mo_to_po_entries
  rw [if_neg (by rw [hlen]; omega)]
  rw [hm]
  rw [if_neg (by simp)]
  rw [hn, h12, h16]
  have hdec : ∀ i ∈ List.range es.length,
      MoConverter.decodeOne (PoConverter.writeMoBytes es) 28
        (28 + 8 * es.length) i
      = .ok ((fun i => MoConverter.decodedOf (es.getD i ⟨[], []⟩)) i) := by
    intro i hi'
    have hi : i < es.length := List.mem_range.mp hi'
    have hmem : es.getD i ⟨[], []⟩ ∈ es := by
      rw [List.getD_eq_getElem es _ hi]
      exact List.getElem_mem hi
    exact MoConverter.decodeOne_writeMo es i hi hsize (hctx _ hmem)
      (hutf _ hmem).1 (hutf _ hmem).2
  rw [MoConverter.decodeAll_ok _ _ _ _ _ hdec]
  rw [MoConverter.range_map_getD es MoConverter.decodedOf]

/-- C4, counterexample: a catalog whose only entry has the single byte
0x04 as source text does not round trip: the decoder splits on the 0x04
separator and returns an entry with context `""` and empty source text,
so the decoded entry set differs from the catalog as a
(context, source_text) → translated_text mapping. -/
theorem c4_mo_roundtrip_counterexample :
    MoConverter.convert_mo_to_po_entries
      (PoConverter.write_mo_file [{ msgid := [4], msgstr := [66] }])
      = .ok [{ msgctxt := some [], orig_text := [], trans_text := [66] }]
  ∧ ([{ msgctxt := some [], orig_text := [], trans_text := [66] }]
      : List MoConverter.MoEntry)
      ≠ [{ msgctxt := none, orig_text := [4], trans_text := [66] }] := by
  refine ⟨by decide, by decide⟩

/-- C4, amended: for every catalog whose source texts contain no 0x04
byte, whose strings are valid UTF-8 (Rust `String`s always are), and
whose encoded file fits 32-bit offsets, decoding the MO bytes produced by
encoding the catalog yields exactly the catalog's entries (as a
permutation — the encoder emits them header-first/sorted), each decoded
with no context and unchanged texts, so the entry set as the mapping
(context, source_text) → translated_text is preserved. -/
theorem c4_mo_roundtrip_amended (es : List PoConverter.MoSrcEntry)
    (hsize : (PoConverter.write_mo_file es).length < MoConverter.W32)
    (hctx : ∀ e ∈ es, 4 ∉ e.msgid)
    (hutf : ∀ e ∈ es, MoConverter.utf8Valid e.msgid = true
      ∧ MoConverter.utf8Valid e.msgstr = true) :
    ∃ es', List.Perm es' es
      ∧ MoConverter.convert_mo_to_po_entries (PoConverter.write_mo_file es)
        = .ok (es'.map MoConverter.decodedOf) := by
  refine ⟨List.insertionSort (fun a b => PoConverter.moLe a b = true) es,
    List.perm_insertionSort _ es, ?_⟩
  unfold PoConverter.write_mo_file
  apply MoConverter.writeMoBytes_roundtrip
  · have h := hsize
    unfold PoConverter.write_mo_file at h
    rwa [PoConverter.writeMoBytes_length] at h
  · intro e he
    exact hctx e ((List.perm_insertionSort _ es).subset he)
  · intro e he
    exact hutf e ((List.perm_insertionSort _ es).subset he)

/-- C4, witness for the amended theorem at the one-entry catalog
`"A" → "B"`. -/
theorem c4_mo_roundtrip_amended_witness :
    ∃ es', List.Perm es'
        [({ msgid := [65], msgstr := [66] } : PoConverter.MoSrcEntry)]
      ∧ MoConverter.convert_mo_to_po_entries
          (PoConverter.write_mo_file [{ msgid := [65], msgstr := [66] }])
        = .ok (es'.map MoConverter.decodedOf) :=
  c4_mo_roundtrip_amended [{ msgid := [65], msgstr := [66] }] (by decide)
    (by decide) (by decide)
